import Mathlib

/-!
Verification of the questify document-summarization backend
(`routes/fileUploadRoutes.js`, the ownership-enforcing variant, together
with its Mongoose models). Strings are modelled as lists of characters,
document/user identifiers as naturals, and the MongoDB collections as
lists inside a `DB` record. External language-model calls are modelled
by an oracle function; handlers record the payloads sent upstream so
that call counts and call order are observable.
-/

namespace Questify

/-- JavaScript strings are modelled as lists of characters. -/
abbrev Str := List Char

/-- JavaScript `text.split(sep)` for a one-character separator: splits the
string at every occurrence of the separator, keeping empty segments, and
always returning at least one segment (`"".split(" ") = [""]`). -/
def splitChar (c : Char) : List Char → List (List Char)
  | [] => [[]]
  | x :: xs =>
    match splitChar c xs with
    | [] => [[]]
    | w :: ws => if x = c then [] :: w :: ws else (x :: w) :: ws

/-- JavaScript `arr.join(sep)`: empty array gives the empty string, a
singleton gives its element, otherwise elements interleaved with `sep`. -/
def joinSep (sep : Str) : List Str → Str
  | [] => []
  | [w] => w
  | w :: ws => w ++ sep ++ joinSep sep ws

/-- Fuel-indexed grouping of a list into consecutive groups of `n`
elements (final group possibly shorter). The fuel only serves to make the
recursion structural; `groupsOf` instantiates it adequately. -/
def groupsOfAux (n : Nat) : Nat → List α → List (List α)
  | _, [] => []
  | 0, l => [l]
  | fuel + 1, x :: xs =>
    (x :: xs.take (n - 1)) :: groupsOfAux n fuel (xs.drop (n - 1))

/-- Consecutive groups of `n` elements, mirroring the indexed `for` loop
`for (let i = 0; i < words.length; i += chunkSize)` with
`words.slice(i, i + chunkSize)`. Faithful to the source for `n ≥ 1`
(the source loop does not terminate for `n = 0`). -/
def groupsOf (n : Nat) (l : List α) : List (List α) :=
  groupsOfAux n l.length l

/-- `splitTextIntoChunks(text, chunkSize)` from the source: split the text
on the single space character, group the resulting segments into
consecutive groups of `chunkSize`, and re-join each group with single
spaces. -/
def splitTextIntoChunks (text : Str) (chunkSize : Nat) : List Str :=
  (groupsOf chunkSize (splitChar ' ' text)).map (joinSep [' '])

/-- The three-dot marker `"..."` appended by the truncation helpers. -/
def ellipsisMarker : Str := ['.', '.', '.']

/-- Character ceiling used by `summarizeText` (`maxLength = 8000`). -/
def summarizeMaxLength : Nat := 8000

/-- Character ceiling used by `answerQuestion` (`maxLength = 12000`). -/
def askMaxLength : Nat := 12000

/-- `text.length > maxLength ? text.substring(0, maxLength) + "..." : text`,
the truncation policy shared by `summarizeText` and `answerQuestion`. -/
def truncEllipsis (maxLength : Nat) (text : Str) : Str :=
  if maxLength < text.length then text.take maxLength ++ ellipsisMarker else text

/-- `summarizeText(text)`: truncates the text to `summarizeMaxLength`
characters (with ellipsis marker) and sends it upstream. The oracle `llm`
stands for the chat-completion call, already including the
`"Summary not available"` fallback for an empty upstream choice; an
upstream error is re-thrown, which `Except` propagation models. -/
def summarizeText (llm : Str → Except String Str) (text : Str) : Except String Str :=
  llm (truncEllipsis summarizeMaxLength text)

/-- `answerQuestion(context, question)`: truncates the context to
`askMaxLength` characters (with ellipsis marker) and sends it upstream
together with the question. -/
def answerQuestion (llm : Str → Str → Except String Str) (context question : Str) :
    Except String Str :=
  llm (truncEllipsis askMaxLength context) question

/-- A row of the `Document` collection (`models/Document.js`):
filename, storage path, extracted text, owning user. Identifiers are
naturals standing for Mongo object ids. -/
structure Document where
  id : Nat
  filename : String
  filepath : String
  text : Str
  userId : Nat
deriving Repr, DecidableEq

/-- A row of the `Summary` collection (`models/Summary.js`): owning
document, owning user, summary text. -/
structure Summary where
  documentId : Nat
  userId : Nat
  content : Str
deriving Repr, DecidableEq

/-- A row of the `QAHistory` collection (`models/QAHistory.js`):
owning document, owning user, question, answer, creation timestamp. -/
structure QAEntry where
  documentId : Nat
  userId : Nat
  question : Str
  answer : Str
  createdAt : Nat
deriving Repr, DecidableEq

/-- The persistent state the routes operate on: the three MongoDB
collections plus the set of stored files on disk. -/
structure DB where
  documents : List Document
  summaries : List Summary
  qaHistory : List QAEntry
  files : List String
deriving Repr, DecidableEq

/-- `Document.findById(id)`. -/
def findDocument (db : DB) (id : Nat) : Option Document :=
  db.documents.find? (fun d => d.id == id)

/-- `Summary.findOne({ documentId, userId })`. -/
def findSummary (db : DB) (documentId userId : Nat) : Option Summary :=
  db.summaries.find? (fun s => s.documentId == documentId && s.userId == userId)

/-- Response of a read-only route: HTTP status, optional JSON body, and
the (unchanged) database. -/
structure Res (α : Type) where
  status : Nat
  body : Option α
  db : DB

/-- `GET /documents/:id`: 404 when absent, 403 when the caller is not the
owner, else 200 with the document. -/
def getDocumentHandler (db : DB) (callerId docId : Nat) : Res Document :=
  match findDocument db docId with
  | none => ⟨404, none, db⟩
  | some d =>
    if d.userId ≠ callerId then ⟨403, none, db⟩
    else ⟨200, some d, db⟩

/-- `GET /summary/:documentId`: 404 when the document is absent, 403 for a
non-owner, 404 when no summary row exists, else 200 with its content. -/
def getSummaryHandler (db : DB) (callerId docId : Nat) : Res Str :=
  match findDocument db docId with
  | none => ⟨404, none, db⟩
  | some d =>
    if d.userId ≠ callerId then ⟨403, none, db⟩
    else
      match findSummary db docId callerId with
      | none => ⟨404, none, db⟩
      | some s => ⟨200, some s.content, db⟩

/-- Descending order on creation timestamps: `a` before `b` when `a` is at
least as new, modelling `.sort({ createdAt: -1 })`. -/
def newerFirst (a b : QAEntry) : Prop := b.createdAt ≤ a.createdAt

instance : DecidableRel newerFirst := fun a b => Nat.decLe b.createdAt a.createdAt

instance : IsTotal QAEntry newerFirst := ⟨fun a b => Nat.le_total b.createdAt a.createdAt⟩

instance : IsTrans QAEntry newerFirst := ⟨fun _ _ _ h h' => Nat.le_trans h' h⟩

/-- Sort Q&A entries newest first. -/
def sortNewestFirst (l : List QAEntry) : List QAEntry :=
  List.insertionSort newerFirst l

/-- `GET /qa-history/:documentId`: 404 when the document is absent, 403
for a non-owner, else 200 with the caller's entries for that document
sorted by `createdAt` descending. -/
def qaHistoryHandler (db : DB) (callerId docId : Nat) : Res (List QAEntry) :=
  match findDocument db docId with
  | none => ⟨404, none, db⟩
  | some d =>
    if d.userId ≠ callerId then ⟨403, none, db⟩
    else
      ⟨200,
        some (sortNewestFirst (db.qaHistory.filter
          (fun e => e.documentId == docId && e.userId == callerId))),
        db⟩

/-- Run `summarizeText` over the chunks in order (the sequential `for`
loop of the `/summarize` handler), returning the list of payloads sent
upstream in call order together with either the first error or the list
of per-chunk summaries. On an error no further chunk is processed. -/
def summarizeChunks (llm : Str → Except String Str) :
    List Str → List Str × Except String (List Str)
  | [] => ([], Except.ok [])
  | c :: cs =>
    match summarizeText llm c with
    | Except.error e => ([truncEllipsis summarizeMaxLength c], Except.error e)
    | Except.ok s =>
      match summarizeChunks llm cs with
      | (tr, Except.error e) => (truncEllipsis summarizeMaxLength c :: tr, Except.error e)
      | (tr, Except.ok ss) => (truncEllipsis summarizeMaxLength c :: tr, Except.ok (s :: ss))

/-- Response of `POST /summarize`: status, optional summary body, optional
error message, resulting database, and the upstream payloads in call
order. -/
structure SummarizeRes where
  status : Nat
  summary : Option Str
  message : Option String
  db : DB
  calls : List Str

/-- `POST /summarize`: 404 when the document is absent, 403 for a
non-owner, 200 with the existing content when a summary row already
exists (no upstream call, no write), otherwise chunk the text, summarize
every chunk sequentially, join the per-chunk summaries with single
spaces, persist that combined summary as a new row and return it; any
upstream failure yields a 500 with a generic message and no write. -/
def summarizeHandler (llm : Str → Except String Str) (db : DB) (callerId docId : Nat) :
    SummarizeRes :=
  match findDocument db docId with
  | none => ⟨404, none, some "Document not found", db, []⟩
  | some d =>
    if d.userId ≠ callerId then
      ⟨403, none, some "Unauthorized to access this document", db, []⟩
    else
      match findSummary db docId callerId with
      | some existing => ⟨200, some existing.content, none, db, []⟩
      | none =>
        match summarizeChunks llm (splitTextIntoChunks d.text 1000) with
        | (tr, Except.error _) => ⟨500, none, some "Summarization failed", db, tr⟩
        | (tr, Except.ok ss) =>
          let combined := joinSep [' '] ss
          ⟨200, some combined, none,
            { db with summaries := db.summaries ++ [⟨docId, callerId, combined⟩] }, tr⟩

/-- `POST /ask`: 404 when the document is absent, 403 for a non-owner,
otherwise send the (truncated) document text and the question upstream;
on success append one `QAHistory` row with the question and answer and
return the answer, on failure a 500 with no write. `now` is the creation
timestamp the store assigns to the new row. -/
def askHandler (llm : Str → Str → Except String Str) (db : DB) (callerId docId : Nat)
    (question : Str) (now : Nat) : Res Str :=
  match findDocument db docId with
  | none => ⟨404, none, db⟩
  | some d =>
    if d.userId ≠ callerId then ⟨403, none, db⟩
    else
      match answerQuestion llm d.text question with
      | Except.error _ => ⟨500, none, db⟩
      | Except.ok answer =>
        ⟨200, some answer,
          { db with qaHistory := db.qaHistory ++ [⟨docId, callerId, question, answer, now⟩] }⟩

/-- One primitive effect of the `DELETE /documents/:id` cascade. -/
inductive DelEffect where
  | deleteSummaries (documentId userId : Nat)
  | deleteQAHistory (documentId userId : Nat)
  | removeFile (path : String)
  | deleteDocument (id : Nat)
deriving Repr, DecidableEq

/-- Interpretation of one deletion effect on the state:
`Summary.deleteMany`, `QAHistory.deleteMany`, `fs.unlinkSync`,
`Document.findByIdAndDelete`. -/
def applyDelEffect (db : DB) : DelEffect → DB
  | DelEffect.deleteSummaries did uid =>
    { db with summaries :=
        db.summaries.filter (fun s => !(s.documentId == did && s.userId == uid)) }
  | DelEffect.deleteQAHistory did uid =>
    { db with qaHistory :=
        db.qaHistory.filter (fun e => !(e.documentId == did && e.userId == uid)) }
  | DelEffect.removeFile p =>
    { db with files := db.files.filter (fun q => !(q == p)) }
  | DelEffect.deleteDocument id =>
    { db with documents := db.documents.filter (fun d => !(d.id == id)) }

/-- Response of `DELETE /documents/:id`: status, the primitive effects in
the order the handler performs them, and the resulting database. -/
structure DeleteRes where
  status : Nat
  effects : List DelEffect
  db : DB

/-- `DELETE /documents/:id`: 404 when absent, 403 for a non-owner, else
delete the caller's Summary rows for the document, then the caller's
QAHistory rows, then the stored file when present, then the Document
row, in that order. -/
def deleteDocumentHandler (db : DB) (callerId docId : Nat) : DeleteRes :=
  match findDocument db docId with
  | none => ⟨404, [], db⟩
  | some d =>
    if d.userId ≠ callerId then ⟨403, [], db⟩
    else
      let effs :=
        [DelEffect.deleteSummaries docId callerId, DelEffect.deleteQAHistory docId callerId]
          ++ (if d.filepath ∈ db.files then [DelEffect.removeFile d.filepath] else [])
          ++ [DelEffect.deleteDocument docId]
      ⟨200, effs, effs.foldl applyDelEffect db⟩

/-- An uploaded multipart file as multer presents it to the handler. -/
structure UploadedFile where
  originalname : String
  path : String
  size : Nat
  mimetype : String
deriving Repr, DecidableEq

/-- The multer `fileFilter`: accept exactly `application/pdf` and
`text/plain`. -/
def fileFilter (file : UploadedFile) : Bool :=
  file.mimetype == "application/pdf" || file.mimetype == "text/plain"

/-- The body of the `/upload` route handler alone: its own check answers
any MIME type other than PDF and plain text with a 400 and no write;
otherwise it extracts the text (`pdf-parse` or UTF-8 read, abstracted by
`extract`), on success stores a new Document row and returns it, on an
extraction failure a 500 with no write. `newId` is the id the store
assigns to the new row. In the composed route (`uploadRoute`) this 400
branch is unreachable: the multer `fileFilter` refuses exactly the same
MIME types before the handler runs. -/
def uploadHandler (extract : UploadedFile → Except String Str) (db : DB) (callerId : Nat)
    (file : UploadedFile) (newId : Nat) : Res Document :=
  if file.mimetype ≠ "application/pdf" ∧ file.mimetype ≠ "text/plain" then
    ⟨400, none, db⟩
  else
    match extract file with
    | Except.error _ => ⟨500, none, db⟩
    | Except.ok text =>
      let doc : Document := ⟨newId, file.originalname, file.path, text, callerId⟩
      ⟨200, some doc, { db with documents := db.documents ++ [doc] }⟩

/-- The `/upload` endpoint as the program composes it: the multer
middleware with `fileFilter` runs before the route handler. When the
filter refuses the file it calls back with a plain `Error`; the server
(`index.js`) registers no error-handling middleware, so that error
reaches Express's default error handler, which responds 500 — the
handler, and with it its own 400 branch, never runs and nothing is
written. -/
def uploadRoute (extract : UploadedFile → Except String Str) (db : DB) (callerId : Nat)
    (file : UploadedFile) (newId : Nat) : Res Document :=
  if fileFilter file then uploadHandler extract db callerId file newId
  else ⟨500, none, db⟩

/-! ### Basic lemmas about splitting, joining and grouping -/

theorem splitChar_ne_nil (c : Char) (l : List Char) : splitChar c l ≠ [] := by
  cases l with
  | nil => simp [splitChar]
  | cons x xs =>
    simp only [splitChar]
    cases h : splitChar c xs with
    | nil => simp
    | cons w ws =>
      dsimp only
      split <;> simp

theorem joinSep_cons (sep w : Str) (ws : List Str) (h : ws ≠ []) :
    joinSep sep (w :: ws) = w ++ sep ++ joinSep sep ws := by
  cases ws with
  | nil => exact absurd rfl h
  | cons v vs => rfl

theorem groupsOfAux_congr (n : Nat) :
    ∀ (f₁ f₂ : Nat) (l : List α), l.length ≤ f₁ → l.length ≤ f₂ →
      groupsOfAux n f₁ l = groupsOfAux n f₂ l := by
  intro f₁
  induction f₁ with
  | zero =>
    intro f₂ l h₁ _
    cases l with
    | nil => cases f₂ <;> rfl
    | cons x xs => simp at h₁
  | succ f ih =>
    intro f₂ l h₁ h₂
    cases l with
    | nil => cases f₂ <;> rfl
    | cons x xs =>
      cases f₂ with
      | zero => simp at h₂
      | succ f₂ =>
        simp only [List.length_cons] at h₁ h₂
        show _ :: groupsOfAux n f (xs.drop (n - 1)) =
          _ :: groupsOfAux n f₂ (xs.drop (n - 1))
        congr 1
        exact ih f₂ _ (by simp only [List.length_drop]; omega)
          (by simp only [List.length_drop]; omega)

theorem groupsOf_nil (n : Nat) : groupsOf n ([] : List α) = [] := rfl

theorem groupsOf_cons (n : Nat) (x : α) (xs : List α) :
    groupsOf n (x :: xs) = (x :: xs.take (n - 1)) :: groupsOf n (xs.drop (n - 1)) := by
  show groupsOfAux n (xs.length + 1) (x :: xs) = _
  show (x :: xs.take (n - 1)) :: groupsOfAux n xs.length (xs.drop (n - 1)) = _
  unfold groupsOf
  congr 1
  exact groupsOfAux_congr n _ _ _ (by simp only [List.length_drop]; omega)
    (le_refl _)

theorem groupsOf_ne_nil (n : Nat) (l : List α) (h : l ≠ []) : groupsOf n l ≠ [] := by
  cases l with
  | nil => exact absurd rfl h
  | cons x xs => rw [groupsOf_cons]; simp

theorem groupsOf_flatten (n : Nat) (l : List α) : (groupsOf n l).flatten = l := by
  have H : ∀ m, ∀ l : List α, l.length ≤ m → (groupsOf n l).flatten = l := by
    intro m
    induction m with
    | zero =>
      intro l hl
      cases l with
      | nil => rfl
      | cons x xs => simp at hl
    | succ m ih =>
      intro l hl
      cases l with
      | nil => rfl
      | cons x xs =>
        rw [groupsOf_cons, List.flatten_cons,
          ih _ (by simp only [List.length_drop]; simp at hl; omega)]
        rw [List.cons_append, List.take_append_drop]
  exact H l.length l (le_refl _)

theorem groupsOf_mem_ne_nil (n : Nat) (l : List α) :
    ∀ g ∈ groupsOf n l, g ≠ [] := by
  have H : ∀ m, ∀ l : List α, l.length ≤ m → ∀ g ∈ groupsOf n l, g ≠ [] := by
    intro m
    induction m with
    | zero =>
      intro l hl
      cases l with
      | nil => simp [groupsOf_nil]
      | cons x xs => simp at hl
    | succ m ih =>
      intro l hl
      cases l with
      | nil => simp [groupsOf_nil]
      | cons x xs =>
        rw [groupsOf_cons]
        intro g hg
        rcases List.mem_cons.1 hg with h | h
        · subst h; simp
        · exact ih _ (by simp only [List.length_drop]; simp at hl; omega) g h
  exact H l.length l (le_refl _)

theorem joinSep_splitChar (c : Char) (l : List Char) :
    joinSep [c] (splitChar c l) = l := by
  induction l with
  | nil => rfl
  | cons x xs ih =>
    simp only [splitChar]
    cases h : splitChar c xs with
    | nil => exact absurd h (splitChar_ne_nil c xs)
    | cons w ws =>
      rw [h] at ih
      dsimp only
      by_cases hx : x = c
      · rw [if_pos hx, joinSep_cons _ _ _ (by simp)]
        simp only [List.nil_append, List.cons_append]
        rw [ih, hx]
      · rw [if_neg hx]
        cases ws with
        | nil =>
          simp only [joinSep] at ih ⊢
          rw [ih]
        | cons v vs =>
          rw [joinSep_cons _ _ _ (by simp)]
          rw [joinSep_cons _ _ _ (by simp)] at ih
          simp only [List.cons_append, List.append_assoc] at ih ⊢
          rw [ih]

theorem splitChar_no_sep (c : Char) (w : List Char) (h : c ∉ w) :
    splitChar c w = [w] := by
  induction w with
  | nil => rfl
  | cons x xs ih =>
    have hx : x ≠ c := fun hxc => h (hxc ▸ List.mem_cons_self x xs)
    have hxs : c ∉ xs := fun hc => h (List.mem_cons_of_mem x hc)
    simp only [splitChar, ih hxs, if_neg hx]

theorem splitChar_append_sep (c : Char) (w rest : List Char) (h : c ∉ w) :
    splitChar c (w ++ c :: rest) = w :: splitChar c rest := by
  induction w with
  | nil =>
    simp only [List.nil_append, splitChar]
    cases hr : splitChar c rest with
    | nil => exact absurd hr (splitChar_ne_nil c rest)
    | cons v vs => simp
  | cons x xs ih =>
    have hx : x ≠ c := fun hxc => h (hxc ▸ List.mem_cons_self x xs)
    have hxs : c ∉ xs := fun hc => h (List.mem_cons_of_mem x hc)
    rw [List.cons_append]
    simp only [splitChar]
    rw [ih hxs]
    dsimp only
    rw [if_neg hx]

theorem splitChar_joinSep (c : Char) (ws : List Str) (hne : ws ≠ [])
    (h : ∀ w ∈ ws, c ∉ w) : splitChar c (joinSep [c] ws) = ws := by
  induction ws with
  | nil => exact absurd rfl hne
  | cons w ws ih =>
    cases ws with
    | nil =>
      simp only [joinSep]
      exact splitChar_no_sep c w (h w (List.mem_cons_self w []))
    | cons v vs =>
      rw [joinSep_cons _ _ _ (by simp)]
      have : w ++ [c] ++ joinSep [c] (v :: vs) = w ++ c :: joinSep [c] (v :: vs) := by
        simp
      rw [this, splitChar_append_sep c w _ (h w (List.mem_cons_self w _)),
        ih (by simp) (fun u hu => h u (List.mem_cons_of_mem w hu))]

theorem joinSep_append (sep : Str) (a b : List Str) (ha : a ≠ []) (hb : b ≠ []) :
    joinSep sep (a ++ b) = joinSep sep a ++ sep ++ joinSep sep b := by
  induction a with
  | nil => exact absurd rfl ha
  | cons w a ih =>
    cases a with
    | nil =>
      rw [List.cons_append, List.nil_append, joinSep_cons _ _ _ hb]
      rfl
    | cons v vs =>
      rw [List.cons_append, joinSep_cons _ _ _ (by simp),
        joinSep_cons _ _ _ (by simp), ih (by simp)]
      simp [List.append_assoc]

theorem flatten_ne_nil_of_forall (G : List (List α)) (hne : G ≠ [])
    (h : ∀ g ∈ G, g ≠ []) : G.flatten ≠ [] := by
  cases G with
  | nil => exact absurd rfl hne
  | cons g gs =>
    rw [List.flatten_cons]
    have : g ≠ [] := h g (List.mem_cons_self g gs)
    cases g with
    | nil => exact absurd rfl this
    | cons x xs => simp

theorem joinSep_map_joinSep (sep : Str) (G : List (List Str))
    (h : ∀ g ∈ G, g ≠ []) :
    joinSep sep (G.map (joinSep sep)) = joinSep sep G.flatten := by
  induction G with
  | nil => rfl
  | cons g gs ih =>
    cases gs with
    | nil => simp [joinSep]
    | cons g' gs' =>
      rw [List.map_cons, joinSep_cons _ _ _ (by simp), List.flatten_cons,
        ih (fun u hu => h u (List.mem_cons_of_mem g hu)),
        joinSep_append sep g _ (h g (List.mem_cons_self g _))
          (flatten_ne_nil_of_forall _ (by simp)
            (fun u hu => h u (List.mem_cons_of_mem g hu)))]

theorem groupsOf_eq_take_drop (n : Nat) (hn : 1 ≤ n) (l : List α) (hl : l ≠ []) :
    groupsOf n l = l.take n :: groupsOf n (l.drop n) := by
  cases l with
  | nil => exact absurd rfl hl
  | cons x xs =>
    rw [groupsOf_cons]
    have htake : (x :: xs).take n = x :: xs.take (n - 1) := by
      have h : n = (n - 1) + 1 := by omega
      rw [h, List.take_succ_cons]
      simp
    have hdrop : (x :: xs).drop n = xs.drop (n - 1) := by
      have h : n = (n - 1) + 1 := by omega
      rw [h, List.drop_succ_cons]
      simp
    rw [htake, hdrop]

theorem groupsOf_of_length_le (n : Nat) (hn : 1 ≤ n) (l : List α) (hl : l ≠ [])
    (hlen : l.length ≤ n) : groupsOf n l = [l] := by
  rw [groupsOf_eq_take_drop n hn l hl, List.take_of_length_le hlen,
    List.drop_eq_nil_of_le hlen, groupsOf_nil]

/-! ### Whitespace tokenization as the specification words it -/

/-- Whitespace characters for tokenization. -/
def isWhitespaceChar (c : Char) : Bool :=
  c == ' ' || c == '\n' || c == '\t' || c == '\r'

/-- Split a string at every whitespace character, keeping empty
segments. -/
def splitOnWS : List Char → List (List Char)
  | [] => [[]]
  | x :: xs =>
    match splitOnWS xs with
    | [] => [[]]
    | w :: ws => if isWhitespaceChar x then [] :: w :: ws else (x :: w) :: ws

/-- Modelled from the spec: "tokenize on whitespace" — the whitespace
word tokens of a text, i.e. its maximal whitespace-free non-empty
segments. The source's `splitTextIntoChunks` does NOT use this: it
splits on the single space character only. -/
def wsWords (l : List Char) : List (List Char) :=
  (splitOnWS l).filter (fun w => !w.isEmpty)

/-- Modelled from the spec: the chunking the claim describes — group the
whitespace word tokens into groups of `chunkSize` and re-join each group
with single spaces. -/
def claimChunks (text : Str) (chunkSize : Nat) : List Str :=
  (groupsOf chunkSize (wsWords text)).map (joinSep [' '])

/-! ### Claim C3: chunking -/

/-- C3 (counterexample): the claim says `splitTextIntoChunks` tokenizes
on whitespace, but the source splits on the single space character only.
On the text `"a\nb"` the whitespace-tokenizing chunker of the claim
yields the chunk `"a b"`, while the source yields the chunk `"a\nb"`:
one concrete input on which the claim, as stated, is false. -/
theorem C3_counterexample :
    claimChunks ['a', '\n', 'b'] 1000 = [['a', ' ', 'b']] ∧
    splitTextIntoChunks ['a', '\n', 'b'] 1000 = [['a', '\n', 'b']] ∧
    splitTextIntoChunks ['a', '\n', 'b'] 1000 ≠ claimChunks ['a', '\n', 'b'] 1000 := by
  refine ⟨by decide, by decide, by decide⟩

/-- C3 (amended): `splitTextIntoChunks` tokenizes the document text on
the single space character (not general whitespace) and groups the
segments into ordered groups of exactly 1000 with only the final group
possibly shorter; for a text of exactly 2500 single-space-separated
space-free segments it yields 3 chunks of segment-counts 1000, 1000,
500, and rejoining all chunks with single spaces reconstructs the
original text exactly. -/
theorem C3_chunking (ws : List Str) (h25 : ws.length = 2500)
    (hsp : ∀ w ∈ ws, ' ' ∉ w) :
    splitTextIntoChunks (joinSep [' '] ws) 1000 =
      [joinSep [' '] (ws.take 1000),
       joinSep [' '] ((ws.drop 1000).take 1000),
       joinSep [' '] ((ws.drop 1000).drop 1000)] ∧
    (splitTextIntoChunks (joinSep [' '] ws) 1000).map
      (fun chunk => (splitChar ' ' chunk).length) = [1000, 1000, 500] ∧
    joinSep [' '] (splitTextIntoChunks (joinSep [' '] ws) 1000) = joinSep [' '] ws := by
  have hne : ws ≠ [] := by
    intro h
    rw [h] at h25
    simp at h25
  have hw : splitChar ' ' (joinSep [' '] ws) = ws := splitChar_joinSep ' ' ws hne hsp
  have hdne : ws.drop 1000 ≠ [] := by
    have : (ws.drop 1000).length = 1500 := by
      rw [List.length_drop, h25]
    intro h
    rw [h] at this
    simp at this
  have hddne : (ws.drop 1000).drop 1000 ≠ [] := by
    have : ((ws.drop 1000).drop 1000).length = 500 := by
      simp only [List.length_drop, h25]
    intro h
    rw [h] at this
    simp at this
  have hddlen : ((ws.drop 1000).drop 1000).length = 500 := by
    simp only [List.length_drop, h25]
  have hgroups : groupsOf 1000 ws =
      [ws.take 1000, (ws.drop 1000).take 1000, (ws.drop 1000).drop 1000] := by
    rw [groupsOf_eq_take_drop 1000 (by norm_num) ws hne,
      groupsOf_eq_take_drop 1000 (by norm_num) _ hdne,
      groupsOf_of_length_le 1000 (by norm_num) _ hddne (by rw [hddlen]; norm_num)]
  have hchunks : splitTextIntoChunks (joinSep [' '] ws) 1000 =
      [joinSep [' '] (ws.take 1000),
       joinSep [' '] ((ws.drop 1000).take 1000),
       joinSep [' '] ((ws.drop 1000).drop 1000)] := by
    unfold splitTextIntoChunks
    rw [hw, hgroups]
    rfl
  refine ⟨hchunks, ?_, ?_⟩
  · rw [hchunks]
    have m1 : ∀ w ∈ ws.take 1000, ' ' ∉ w :=
      fun w hmem => hsp w (List.mem_of_mem_take hmem)
    have m2 : ∀ w ∈ (ws.drop 1000).take 1000, ' ' ∉ w :=
      fun w hmem => hsp w (List.mem_of_mem_drop (List.mem_of_mem_take hmem))
    have m3 : ∀ w ∈ (ws.drop 1000).drop 1000, ' ' ∉ w :=
      fun w hmem => hsp w (List.mem_of_mem_drop (List.mem_of_mem_drop hmem))
    have n1 : ws.take 1000 ≠ [] := by
      intro h
      have := congrArg List.length h
      rw [List.length_take, h25] at this
      simp at this
    have n2 : (ws.drop 1000).take 1000 ≠ [] := by
      intro h
      have := congrArg List.length h
      simp only [List.length_take, List.length_drop, h25] at this
      simp at this
    rw [List.map_cons, List.map_cons, List.map_cons, List.map_nil]
    rw [splitChar_joinSep ' ' _ n1 m1, splitChar_joinSep ' ' _ n2 m2,
      splitChar_joinSep ' ' _ hddne m3]
    simp only [List.length_take, List.length_drop, h25]
    norm_num
  · unfold splitTextIntoChunks
    rw [hw, joinSep_map_joinSep [' '] _ (groupsOf_mem_ne_nil 1000 ws),
      groupsOf_flatten]

/-- C3 (witness): the amended chunking theorem instantiated at the text
of 2500 copies of the segment `"w"` separated by single spaces. -/
theorem C3_chunking_witness :
    (splitTextIntoChunks (joinSep [' '] (List.replicate 2500 ['w'])) 1000).map
      (fun chunk => (splitChar ' ' chunk).length) = [1000, 1000, 500] ∧
    joinSep [' '] (splitTextIntoChunks (joinSep [' '] (List.replicate 2500 ['w'])) 1000) =
      joinSep [' '] (List.replicate 2500 ['w']) := by
  have h := C3_chunking (List.replicate 2500 ['w']) (by rw [List.length_replicate])
    (fun w hmem => by rw [List.eq_of_mem_replicate hmem]; decide)
  exact ⟨h.2.1, h.2.2⟩

/-! ### Lemmas about the summarization pipeline -/

theorem find?_append_none {p : α → Bool} {l₁ l₂ : List α} (h : l₁.find? p = none) :
    (l₁ ++ l₂).find? p = l₂.find? p := by
  induction l₁ with
  | nil => rfl
  | cons x xs ih =>
    rw [List.find?_cons] at h
    rw [List.cons_append, List.find?_cons]
    cases hp : p x with
    | false =>
      rw [hp] at h
      dsimp only at h ⊢
      exact ih h
    | true =>
      rw [hp] at h
      simp at h

theorem summarizeChunks_cons (llm : Str → Except String Str) (c : Str) (cs : List Str) :
    summarizeChunks llm (c :: cs) =
      match summarizeText llm c with
      | Except.error e => ([truncEllipsis summarizeMaxLength c], Except.error e)
      | Except.ok s =>
        match summarizeChunks llm cs with
        | (tr, Except.error e) => (truncEllipsis summarizeMaxLength c :: tr, Except.error e)
        | (tr, Except.ok ss) =>
          (truncEllipsis summarizeMaxLength c :: tr, Except.ok (s :: ss)) := rfl

theorem summarizeChunks_ok (llm : Str → Except String Str) :
    ∀ (cs : List Str) (tr ss : List Str),
      summarizeChunks llm cs = (tr, Except.ok ss) →
      tr = cs.map (truncEllipsis summarizeMaxLength) ∧
      List.Forall₂ (fun c s => summarizeText llm c = Except.ok s) cs ss := by
  intro cs
  induction cs with
  | nil =>
    intro tr ss h
    simp only [summarizeChunks] at h
    cases h
    exact ⟨rfl, List.Forall₂.nil⟩
  | cons c cs ih =>
    intro tr ss h
    rw [summarizeChunks_cons] at h
    cases hc : summarizeText llm c with
    | error e => rw [hc] at h; cases h
    | ok s =>
      rw [hc] at h
      dsimp only at h
      cases hrec : summarizeChunks llm cs with
      | mk tr' res =>
        rw [hrec] at h
        cases res with
        | error e => dsimp only at h; cases h
        | ok ss' =>
          dsimp only at h
          cases h
          obtain ⟨htr, hall⟩ := ih tr' ss' hrec
          exact ⟨by rw [htr, List.map_cons], List.Forall₂.cons hc hall⟩

theorem summarizeChunks_trace_head (llm : Str → Except String Str) (c : Str)
    (cs : List Str) :
    (summarizeChunks llm (c :: cs)).1.head? =
      some (truncEllipsis summarizeMaxLength c) := by
  rw [summarizeChunks_cons]
  cases hc : summarizeText llm c with
  | error e => rfl
  | ok s =>
    dsimp only
    cases hrec : summarizeChunks llm cs with
    | mk tr' res => cases res <;> rfl

theorem splitTextIntoChunks_ne_nil (text : Str) (n : Nat) :
    splitTextIntoChunks text n ≠ [] := by
  unfold splitTextIntoChunks
  intro h
  rw [List.map_eq_nil_iff] at h
  exact groupsOf_ne_nil n _ (splitChar_ne_nil ' ' text) h

theorem summarizeHandler_eq_of_ok (llm : Str → Except String Str) (db : DB)
    (callerId docId : Nat) (d : Document) (tr ss : List Str)
    (hd : findDocument db docId = some d) (hown : d.userId = callerId)
    (hnone : findSummary db docId callerId = none)
    (hrun : summarizeChunks llm (splitTextIntoChunks d.text 1000) = (tr, Except.ok ss)) :
    summarizeHandler llm db callerId docId =
      ⟨200, some (joinSep [' '] ss), none,
        { db with summaries := db.summaries ++ [⟨docId, callerId, joinSep [' '] ss⟩] },
        tr⟩ := by
  unfold summarizeHandler
  rw [hd]
  dsimp only
  rw [if_neg (by rw [hown]; exact fun h => h rfl)]
  rw [hnone]
  dsimp only
  rw [hrun]

theorem summarizeHandler_eq_of_error (llm : Str → Except String Str) (db : DB)
    (callerId docId : Nat) (d : Document) (tr : List Str) (e : String)
    (hd : findDocument db docId = some d) (hown : d.userId = callerId)
    (hnone : findSummary db docId callerId = none)
    (hrun : summarizeChunks llm (splitTextIntoChunks d.text 1000) = (tr, Except.error e)) :
    summarizeHandler llm db callerId docId =
      ⟨500, none, some "Summarization failed", db, tr⟩ := by
  unfold summarizeHandler
  rw [hd]
  dsimp only
  rw [if_neg (by rw [hown]; exact fun h => h rfl)]
  rw [hnone]
  dsimp only
  rw [hrun]

theorem summarizeHandler_eq_of_existing (llm : Str → Except String Str) (db : DB)
    (callerId docId : Nat) (d : Document) (ex : Summary)
    (hd : findDocument db docId = some d) (hown : d.userId = callerId)
    (hex : findSummary db docId callerId = some ex) :
    summarizeHandler llm db callerId docId = ⟨200, some ex.content, none, db, []⟩ := by
  unfold summarizeHandler
  rw [hd]
  dsimp only
  rw [if_neg (by rw [hown]; exact fun h => h rfl)]
  rw [hex]

theorem summarizeHandler_calls (llm : Str → Except String Str) (db : DB)
    (callerId docId : Nat) (d : Document)
    (hd : findDocument db docId = some d) (hown : d.userId = callerId)
    (hnone : findSummary db docId callerId = none) :
    (summarizeHandler llm db callerId docId).calls =
      (summarizeChunks llm (splitTextIntoChunks d.text 1000)).1 := by
  cases hrun : summarizeChunks llm (splitTextIntoChunks d.text 1000) with
  | mk tr res =>
    cases res with
    | error e => rw [summarizeHandler_eq_of_error llm db callerId docId d tr e hd hown hnone hrun]
    | ok ss => rw [summarizeHandler_eq_of_ok llm db callerId docId d tr ss hd hown hnone hrun]

/-! ### Concrete fixtures used by witnesses -/

/-- A stored document owned by user 10. -/
def docW : Document := ⟨1, "notes.txt", "uploads/notes.txt", ['h', 'i'], 10⟩

/-- A database holding just `docW` and its stored file. -/
def dbW : DB := ⟨[docW], [], [], ["uploads/notes.txt"]⟩

/-- An existing summary row for `docW` and user 10. -/
def sumW : Summary := ⟨1, 10, ['s']⟩

/-- A database where a summary for `docW` already exists. -/
def dbS : DB := ⟨[docW], [sumW], [], ["uploads/notes.txt"]⟩

/-- A document with empty extracted text, owned by user 10. -/
def docE : Document := ⟨2, "empty.txt", "uploads/empty.txt", [], 10⟩

/-- A database holding just the empty-text document. -/
def dbE : DB := ⟨[docE], [], [], []⟩

/-- An oracle that answers every summarization call with its own input. -/
def okEcho : Str → Except String Str := fun s => Except.ok s

/-- An oracle whose every call fails. -/
def failLLM : Str → Except String Str := fun _ => Except.error "boom"

/-- A question-answering oracle that echoes the question. -/
def okEchoQA : Str → Str → Except String Str := fun _ q => Except.ok q

/-! ### Claim C5: combined summary -/

/-- C5: when summarize proceeds past the short-circuit and every
language-model call succeeds, the upstream payloads are exactly the
truncations of the chunks in original chunk order (one call per chunk,
no second pass), the per-chunk summaries are the calls' results in
order, and the returned and persisted combined summary is the per-chunk
summaries joined with single spaces. -/
theorem C5_summarize_combines (llm : Str → Except String Str) (db : DB)
    (callerId docId : Nat) (d : Document) (tr ss : List Str)
    (hd : findDocument db docId = some d) (hown : d.userId = callerId)
    (hnone : findSummary db docId callerId = none)
    (hrun : summarizeChunks llm (splitTextIntoChunks d.text 1000) = (tr, Except.ok ss)) :
    (summarizeHandler llm db callerId docId).status = 200 ∧
    (summarizeHandler llm db callerId docId).calls =
      (splitTextIntoChunks d.text 1000).map (truncEllipsis summarizeMaxLength) ∧
    List.Forall₂ (fun c s => summarizeText llm c = Except.ok s)
      (splitTextIntoChunks d.text 1000) ss ∧
    (summarizeHandler llm db callerId docId).summary = some (joinSep [' '] ss) ∧
    (summarizeHandler llm db callerId docId).db.summaries =
      db.summaries ++ [⟨docId, callerId, joinSep [' '] ss⟩] := by
  have heq := summarizeHandler_eq_of_ok llm db callerId docId d tr ss hd hown hnone hrun
  obtain ⟨htr, hall⟩ := summarizeChunks_ok llm _ tr ss hrun
  rw [heq]
  exact ⟨rfl, htr, hall, rfl, rfl⟩

/-- C5 (witness): the combined-summary theorem at a one-chunk document
and the echoing oracle. -/
theorem C5_summarize_combines_witness :
    (summarizeHandler okEcho dbW 10 1).status = 200 ∧
    (summarizeHandler okEcho dbW 10 1).calls =
      (splitTextIntoChunks docW.text 1000).map (truncEllipsis summarizeMaxLength) ∧
    List.Forall₂ (fun c s => summarizeText okEcho c = Except.ok s)
      (splitTextIntoChunks docW.text 1000) [['h', 'i']] ∧
    (summarizeHandler okEcho dbW 10 1).summary = some (joinSep [' '] [['h', 'i']]) ∧
    (summarizeHandler okEcho dbW 10 1).db.summaries =
      dbW.summaries ++ [⟨1, 10, joinSep [' '] [['h', 'i']]⟩] :=
  C5_summarize_combines okEcho dbW 10 1 docW [['h', 'i']] [['h', 'i']] rfl rfl rfl rfl

/-! ### Claim C2: idempotent short-circuit -/

/-- C2: if a Summary row already exists for (document, caller), summarize
returns its content with no upstream call and no write; hence two
sequential summarize calls on the same document and user return the same
content both times, the second performs no upstream call and no write,
and exactly one Summary row for the pair exists afterwards. -/
theorem C2_summarize_idempotent :
    (∀ (llm : Str → Except String Str) (db : DB) (callerId docId : Nat)
        (d : Document) (ex : Summary),
      findDocument db docId = some d → d.userId = callerId →
      findSummary db docId callerId = some ex →
      summarizeHandler llm db callerId docId = ⟨200, some ex.content, none, db, []⟩) ∧
    (∀ (llm : Str → Except String Str) (db : DB) (callerId docId : Nat)
        (d : Document) (tr ss : List Str),
      findDocument db docId = some d → d.userId = callerId →
      findSummary db docId callerId = none →
      summarizeChunks llm (splitTextIntoChunks d.text 1000) = (tr, Except.ok ss) →
      (summarizeHandler llm (summarizeHandler llm db callerId docId).db
          callerId docId).summary = (summarizeHandler llm db callerId docId).summary ∧
      (summarizeHandler llm (summarizeHandler llm db callerId docId).db
          callerId docId).db = (summarizeHandler llm db callerId docId).db ∧
      (summarizeHandler llm (summarizeHandler llm db callerId docId).db
          callerId docId).calls = [] ∧
      (summarizeHandler llm db callerId docId).db.summaries.countP
          (fun s => s.documentId == docId && s.userId == callerId) = 1) := by
  constructor
  · intro llm db callerId docId d ex hd hown hex
    exact summarizeHandler_eq_of_existing llm db callerId docId d ex hd hown hex
  · intro llm db callerId docId d tr ss hd hown hnone hrun
    have hnone' : db.summaries.find?
        (fun s => s.documentId == docId && s.userId == callerId) = none := hnone
    have h1 := summarizeHandler_eq_of_ok llm db callerId docId d tr ss hd hown hnone hrun
    rw [h1]
    dsimp only
    have hex : findSummary
        { db with summaries :=
            db.summaries ++ [⟨docId, callerId, joinSep [' '] ss⟩] } docId callerId =
        some ⟨docId, callerId, joinSep [' '] ss⟩ := by
      show (db.summaries ++ [(⟨docId, callerId, joinSep [' '] ss⟩ : Summary)]).find? _ = _
      rw [find?_append_none hnone']
      simp [List.find?_cons]
    have hd2 : findDocument
        { db with summaries :=
            db.summaries ++ [⟨docId, callerId, joinSep [' '] ss⟩] } docId = some d := hd
    have h2 := summarizeHandler_eq_of_existing llm _ callerId docId d
      ⟨docId, callerId, joinSep [' '] ss⟩ hd2 hown hex
    rw [h2]
    refine ⟨rfl, rfl, rfl, ?_⟩
    rw [List.countP_append]
    have h0 : db.summaries.countP
        (fun s => s.documentId == docId && s.userId == callerId) = 0 := by
      rw [List.countP_eq_zero]
      intro s hs
      have := List.find?_eq_none.mp hnone' s hs
      simpa using this
    rw [h0]
    simp [List.countP_cons]

/-- C2 (witness): the short-circuit at a database holding an existing
summary, and the two-call idempotence at a fresh database with the
echoing oracle. -/
theorem C2_summarize_idempotent_witness :
    summarizeHandler okEcho dbS 10 1 = ⟨200, some sumW.content, none, dbS, []⟩ ∧
    ((summarizeHandler okEcho (summarizeHandler okEcho dbW 10 1).db 10 1).summary =
        (summarizeHandler okEcho dbW 10 1).summary ∧
      (summarizeHandler okEcho (summarizeHandler okEcho dbW 10 1).db 10 1).db =
        (summarizeHandler okEcho dbW 10 1).db ∧
      (summarizeHandler okEcho (summarizeHandler okEcho dbW 10 1).db 10 1).calls = [] ∧
      (summarizeHandler okEcho dbW 10 1).db.summaries.countP
        (fun s => s.documentId == 1 && s.userId == 10) = 1) :=
  ⟨C2_summarize_idempotent.1 okEcho dbS 10 1 docW sumW rfl rfl rfl,
    C2_summarize_idempotent.2 okEcho dbW 10 1 docW [['h', 'i']] [['h', 'i']]
      rfl rfl rfl rfl⟩

/-! ### Claim C6: failure aborts the whole operation -/

/-- C6: if any per-chunk language-model call fails, summarize responds
500 with the generic "Summarization failed" message, persists nothing
(the database is unchanged), and a subsequent summarize call on the same
document starts again with the first chunk's payload as its first
upstream call. -/
theorem C6_summarize_abort (llm llm₂ : Str → Except String Str) (db : DB)
    (callerId docId : Nat) (d : Document) (tr : List Str) (e : String)
    (hd : findDocument db docId = some d) (hown : d.userId = callerId)
    (hnone : findSummary db docId callerId = none)
    (hrun : summarizeChunks llm (splitTextIntoChunks d.text 1000) = (tr, Except.error e)) :
    summarizeHandler llm db callerId docId =
      ⟨500, none, some "Summarization failed", db, tr⟩ ∧
    (summarizeHandler llm₂ (summarizeHandler llm db callerId docId).db
        callerId docId).calls.head? =
      (splitTextIntoChunks d.text 1000).head?.map (truncEllipsis summarizeMaxLength) ∧
    (summarizeHandler llm₂ (summarizeHandler llm db callerId docId).db
        callerId docId).calls ≠ [] := by
  have h1 := summarizeHandler_eq_of_error llm db callerId docId d tr e hd hown hnone hrun
  rw [h1]
  dsimp only
  have hcalls := summarizeHandler_calls llm₂ db callerId docId d hd hown hnone
  rw [hcalls]
  cases hc : splitTextIntoChunks d.text 1000 with
  | nil => exact absurd hc (splitTextIntoChunks_ne_nil d.text 1000)
  | cons c cs =>
    have hhead := summarizeChunks_trace_head llm₂ c cs
    refine ⟨rfl, by rw [hhead]; rfl, ?_⟩
    intro hnil
    rw [hnil] at hhead
    simp at hhead

/-- C6 (witness): the abort theorem at a one-chunk document with a
failing oracle, retried with the echoing oracle. -/
theorem C6_summarize_abort_witness :
    summarizeHandler failLLM dbW 10 1 =
      ⟨500, none, some "Summarization failed", dbW, [['h', 'i']]⟩ ∧
    (summarizeHandler okEcho (summarizeHandler failLLM dbW 10 1).db 10 1).calls.head? =
      (splitTextIntoChunks docW.text 1000).head?.map (truncEllipsis summarizeMaxLength) ∧
    (summarizeHandler okEcho (summarizeHandler failLLM dbW 10 1).db 10 1).calls ≠ [] :=
  C6_summarize_abort failLLM okEcho dbW 10 1 docW [['h', 'i']] "boom" rfl rfl rfl rfl

/-! ### Claim C1: ownership checks -/

/-- C1: for an existing document and an authenticated caller who is not
its owner, each protected document operation responds 403 and leaves the
document, summary and QA-history stores (and the file store) unchanged. -/
theorem C1_ownership_403 (db : DB) (callerId docId : Nat) (d : Document)
    (hd : findDocument db docId = some d) (hne : d.userId ≠ callerId) :
    getDocumentHandler db callerId docId = ⟨403, none, db⟩ ∧
    getSummaryHandler db callerId docId = ⟨403, none, db⟩ ∧
    qaHistoryHandler db callerId docId = ⟨403, none, db⟩ ∧
    (∀ llm : Str → Except String Str,
      summarizeHandler llm db callerId docId =
        ⟨403, none, some "Unauthorized to access this document", db, []⟩) ∧
    (∀ (llm : Str → Str → Except String Str) (question : Str) (now : Nat),
      askHandler llm db callerId docId question now = ⟨403, none, db⟩) ∧
    deleteDocumentHandler db callerId docId = ⟨403, [], db⟩ := by
  refine ⟨?_, ?_, ?_, ?_, ?_, ?_⟩
  · unfold getDocumentHandler
    rw [hd]
    dsimp only
    rw [if_pos hne]
  · unfold getSummaryHandler
    rw [hd]
    dsimp only
    rw [if_pos hne]
  · unfold qaHistoryHandler
    rw [hd]
    dsimp only
    rw [if_pos hne]
  · intro llm
    unfold summarizeHandler
    rw [hd]
    dsimp only
    rw [if_pos hne]
  · intro llm question now
    unfold askHandler
    rw [hd]
    dsimp only
    rw [if_pos hne]
  · unfold deleteDocumentHandler
    rw [hd]
    dsimp only
    rw [if_pos hne]

/-- C1 (witness): a stranger (user 99) hitting every route of the
document owned by user 10. -/
theorem C1_ownership_403_witness :
    getDocumentHandler dbW 99 1 = ⟨403, none, dbW⟩ ∧
    getSummaryHandler dbW 99 1 = ⟨403, none, dbW⟩ ∧
    qaHistoryHandler dbW 99 1 = ⟨403, none, dbW⟩ ∧
    summarizeHandler okEcho dbW 99 1 =
      ⟨403, none, some "Unauthorized to access this document", dbW, []⟩ ∧
    askHandler okEchoQA dbW 99 1 ['q'] 7 = ⟨403, none, dbW⟩ ∧
    deleteDocumentHandler dbW 99 1 = ⟨403, [], dbW⟩ := by
  have h := C1_ownership_403 dbW 99 1 docW rfl (by decide)
  exact ⟨h.1, h.2.1, h.2.2.1, h.2.2.2.1 okEcho, h.2.2.2.2.1 okEchoQA ['q'] 7,
    h.2.2.2.2.2⟩

/-! ### Claim C4: truncation ceilings -/

/-- C4: the summarization path truncates each upstream payload to at
most 8000 characters with an ellipsis marker appended exactly when
truncation occurs, the question-answering path applies the same policy
to the full document text with the strictly larger ceiling 12000, and
inputs at or below the respective ceiling are sent unmodified. -/
theorem C4_truncation_ceilings :
    summarizeMaxLength < askMaxLength ∧
    (∀ (llm : Str → Except String Str) (t : Str), summarizeMaxLength < t.length →
      summarizeText llm t = llm (t.take summarizeMaxLength ++ ellipsisMarker)) ∧
    (∀ (llm : Str → Except String Str) (t : Str), t.length ≤ summarizeMaxLength →
      summarizeText llm t = llm t) ∧
    (∀ (llm : Str → Str → Except String Str) (c q : Str), askMaxLength < c.length →
      answerQuestion llm c q = llm (c.take askMaxLength ++ ellipsisMarker) q) ∧
    (∀ (llm : Str → Str → Except String Str) (c q : Str), c.length ≤ askMaxLength →
      answerQuestion llm c q = llm c q) := by
  refine ⟨by norm_num [summarizeMaxLength, askMaxLength], ?_, ?_, ?_, ?_⟩
  · intro llm t h
    unfold summarizeText truncEllipsis
    rw [if_pos h]
  · intro llm t h
    unfold summarizeText truncEllipsis
    rw [if_neg (not_lt.mpr h)]
  · intro llm c q h
    unfold answerQuestion truncEllipsis
    rw [if_pos h]
  · intro llm c q h
    unfold answerQuestion truncEllipsis
    rw [if_neg (not_lt.mpr h)]

/-- C4 (witness): a 9000-character text is truncated to 8000 plus the
marker, an 8000-character text passes unmodified, and likewise for the
13000/12000-character contexts on the question-answering path. -/
theorem C4_truncation_ceilings_witness :
    summarizeText okEcho (List.replicate 9000 'a') =
      okEcho ((List.replicate 9000 'a').take summarizeMaxLength ++ ellipsisMarker) ∧
    summarizeText okEcho (List.replicate 8000 'a') =
      okEcho (List.replicate 8000 'a') ∧
    answerQuestion okEchoQA (List.replicate 13000 'b') ['q'] =
      okEchoQA ((List.replicate 13000 'b').take askMaxLength ++ ellipsisMarker) ['q'] ∧
    answerQuestion okEchoQA (List.replicate 12000 'b') ['q'] =
      okEchoQA (List.replicate 12000 'b') ['q'] :=
  ⟨C4_truncation_ceilings.2.1 okEcho _
      (by rw [List.length_replicate]; norm_num [summarizeMaxLength]),
    C4_truncation_ceilings.2.2.1 okEcho _
      (by rw [List.length_replicate]; norm_num [summarizeMaxLength]),
    C4_truncation_ceilings.2.2.2.1 okEchoQA _ ['q']
      (by rw [List.length_replicate]; norm_num [askMaxLength]),
    C4_truncation_ceilings.2.2.2.2 okEchoQA _ ['q']
      (by rw [List.length_replicate]; norm_num [askMaxLength])⟩

/-! ### Claim C10: empty text still yields one chunk -/

theorem splitTextIntoChunks_nil (n : Nat) : splitTextIntoChunks [] n = [[]] := by
  unfold splitTextIntoChunks
  have h : splitChar ' ' [] = [[]] := rfl
  rw [h, groupsOf_cons]
  simp [groupsOf_nil, joinSep]

/-- C10: for every text and chunk size ≥ 1, `splitTextIntoChunks`
returns at least one chunk; the empty text yields exactly one empty
chunk, so summarize on an empty-text document makes exactly one upstream
call (with the empty payload) and persists that single call's result as
the combined summary. -/
theorem C10_empty_text_single_chunk :
    (∀ (text : Str) (n : Nat), 1 ≤ n → splitTextIntoChunks text n ≠ []) ∧
    (∀ n : Nat, 1 ≤ n → splitTextIntoChunks [] n = [[]]) ∧
    (∀ (llm : Str → Except String Str) (db : DB) (callerId docId : Nat)
        (d : Document) (s : Str),
      findDocument db docId = some d → d.userId = callerId →
      findSummary db docId callerId = none → d.text = [] →
      llm [] = Except.ok s →
      (summarizeHandler llm db callerId docId).calls = [[]] ∧
      (summarizeHandler llm db callerId docId).status = 200 ∧
      (summarizeHandler llm db callerId docId).summary = some s ∧
      (summarizeHandler llm db callerId docId).db.summaries =
        db.summaries ++ [⟨docId, callerId, s⟩]) := by
  refine ⟨fun text n _ => splitTextIntoChunks_ne_nil text n,
    fun n _ => splitTextIntoChunks_nil n, ?_⟩
  intro llm db callerId docId d s hd hown hnone htext hllm
  have hchunks : splitTextIntoChunks d.text 1000 = [[]] := by
    rw [htext, splitTextIntoChunks_nil]
  have hst : summarizeText llm [] = Except.ok s := by
    unfold summarizeText
    have h : truncEllipsis summarizeMaxLength [] = [] := rfl
    rw [h]
    exact hllm
  have hrun : summarizeChunks llm (splitTextIntoChunks d.text 1000) =
      ([[]], Except.ok [s]) := by
    rw [hchunks, summarizeChunks_cons, hst]
    rfl
  have heq := summarizeHandler_eq_of_ok llm db callerId docId d [[]] [s] hd hown hnone hrun
  rw [heq]
  exact ⟨rfl, rfl, rfl, rfl⟩

/-- C10 (witness): summarize on the empty-text document with the echoing
oracle makes exactly the one empty call and persists the empty summary. -/
theorem C10_empty_text_single_chunk_witness :
    (summarizeHandler okEcho dbE 10 2).calls = [[]] ∧
    (summarizeHandler okEcho dbE 10 2).status = 200 ∧
    (summarizeHandler okEcho dbE 10 2).summary = some [] ∧
    (summarizeHandler okEcho dbE 10 2).db.summaries = dbE.summaries ++ [⟨2, 10, []⟩] :=
  C10_empty_text_single_chunk.2.2 okEcho dbE 10 2 docE [] rfl rfl rfl rfl rfl

/-! ### Claim C7: deletion cascade -/

theorem find?_filter_not (p : α → Bool) (l : List α) :
    (l.filter (fun x => !(p x))).find? p = none := by
  rw [List.find?_eq_none]
  intro x hx
  rw [List.mem_filter] at hx
  simp only [Bool.not_eq_true'] at hx
  simp [hx.2]

/-- C7: deleting a document as its owner responds 200, performs the
cascade effects in order (caller's Summary rows, caller's QAHistory rows,
the stored file when present, then the Document row), and afterwards the
document, its summary for the caller, the caller's QA rows and the file
are gone; fetching the summary or the QA history then responds
not-found. -/
theorem C7_delete_cascade (db : DB) (callerId docId : Nat) (d : Document)
    (hd : findDocument db docId = some d) (hown : d.userId = callerId) :
    (deleteDocumentHandler db callerId docId).status = 200 ∧
    (deleteDocumentHandler db callerId docId).effects =
      [DelEffect.deleteSummaries docId callerId, DelEffect.deleteQAHistory docId callerId]
        ++ (if d.filepath ∈ db.files then [DelEffect.removeFile d.filepath] else [])
        ++ [DelEffect.deleteDocument docId] ∧
    findDocument (deleteDocumentHandler db callerId docId).db docId = none ∧
    findSummary (deleteDocumentHandler db callerId docId).db docId callerId = none ∧
    (∀ e ∈ (deleteDocumentHandler db callerId docId).db.qaHistory,
      ¬(e.documentId = docId ∧ e.userId = callerId)) ∧
    d.filepath ∉ (deleteDocumentHandler db callerId docId).db.files ∧
    (getSummaryHandler (deleteDocumentHandler db callerId docId).db callerId docId).status
      = 404 ∧
    (qaHistoryHandler (deleteDocumentHandler db callerId docId).db callerId docId).status
      = 404 := by
  by_cases hf : d.filepath ∈ db.files
  · have heq : deleteDocumentHandler db callerId docId =
        ⟨200,
          [DelEffect.deleteSummaries docId callerId,
            DelEffect.deleteQAHistory docId callerId,
            DelEffect.removeFile d.filepath, DelEffect.deleteDocument docId],
          { documents := db.documents.filter (fun x => !(x.id == docId)),
            summaries := db.summaries.filter
              (fun s => !(s.documentId == docId && s.userId == callerId)),
            qaHistory := db.qaHistory.filter
              (fun e => !(e.documentId == docId && e.userId == callerId)),
            files := db.files.filter (fun q => !(q == d.filepath)) }⟩ := by
      unfold deleteDocumentHandler
      rw [hd]
      dsimp only
      rw [if_neg (by rw [hown]; exact fun h => h rfl), if_pos hf]
      rfl
    rw [heq, if_pos hf]
    dsimp only
    have hfd : findDocument
        { documents := db.documents.filter (fun x => !(x.id == docId)),
          summaries := db.summaries.filter
            (fun s => !(s.documentId == docId && s.userId == callerId)),
          qaHistory := db.qaHistory.filter
            (fun e => !(e.documentId == docId && e.userId == callerId)),
          files := db.files.filter (fun q => !(q == d.filepath)) } docId = none :=
      find?_filter_not (fun x : Document => x.id == docId) db.documents
    refine ⟨rfl, rfl, hfd,
      find?_filter_not (fun s : Summary => s.documentId == docId && s.userId == callerId)
        db.summaries, ?_, ?_, ?_, ?_⟩
    · intro e he
      rw [List.mem_filter] at he
      have := he.2
      simp only [Bool.not_eq_true', Bool.and_eq_false_iff, beq_eq_false_iff_ne] at this
      intro hcontra
      rcases this with h | h
      · exact h hcontra.1
      · exact h hcontra.2
    · intro hmem
      rw [List.mem_filter] at hmem
      simp at hmem
    · unfold getSummaryHandler
      rw [hfd]
    · unfold qaHistoryHandler
      rw [hfd]
  · have heq : deleteDocumentHandler db callerId docId =
        ⟨200,
          [DelEffect.deleteSummaries docId callerId,
            DelEffect.deleteQAHistory docId callerId, DelEffect.deleteDocument docId],
          { documents := db.documents.filter (fun x => !(x.id == docId)),
            summaries := db.summaries.filter
              (fun s => !(s.documentId == docId && s.userId == callerId)),
            qaHistory := db.qaHistory.filter
              (fun e => !(e.documentId == docId && e.userId == callerId)),
            files := db.files }⟩ := by
      unfold deleteDocumentHandler
      rw [hd]
      dsimp only
      rw [if_neg (by rw [hown]; exact fun h => h rfl), if_neg hf]
      rfl
    rw [heq, if_neg hf]
    dsimp only
    have hfd : findDocument
        { documents := db.documents.filter (fun x => !(x.id == docId)),
          summaries := db.summaries.filter
            (fun s => !(s.documentId == docId && s.userId == callerId)),
          qaHistory := db.qaHistory.filter
            (fun e => !(e.documentId == docId && e.userId == callerId)),
          files := db.files } docId = none :=
      find?_filter_not (fun x : Document => x.id == docId) db.documents
    refine ⟨rfl, rfl, hfd,
      find?_filter_not (fun s : Summary => s.documentId == docId && s.userId == callerId)
        db.summaries, ?_, hf, ?_, ?_⟩
    · intro e he
      rw [List.mem_filter] at he
      have := he.2
      simp only [Bool.not_eq_true', Bool.and_eq_false_iff, beq_eq_false_iff_ne] at this
      intro hcontra
      rcases this with h | h
      · exact h hcontra.1
      · exact h hcontra.2
    · unfold getSummaryHandler
      rw [hfd]
    · unfold qaHistoryHandler
      rw [hfd]

/-- C7 (witness): the owner (user 10) deletes the stored document whose
file is present; status, effect order and the emptied lookups are checked
at that concrete state. -/
theorem C7_delete_cascade_witness :
    (deleteDocumentHandler dbW 10 1).status = 200 ∧
    (deleteDocumentHandler dbW 10 1).effects =
      [DelEffect.deleteSummaries 1 10, DelEffect.deleteQAHistory 1 10]
        ++ (if docW.filepath ∈ dbW.files then [DelEffect.removeFile docW.filepath] else [])
        ++ [DelEffect.deleteDocument 1] ∧
    findDocument (deleteDocumentHandler dbW 10 1).db 1 = none ∧
    findSummary (deleteDocumentHandler dbW 10 1).db 1 10 = none ∧
    docW.filepath ∉ (deleteDocumentHandler dbW 10 1).db.files ∧
    (getSummaryHandler (deleteDocumentHandler dbW 10 1).db 10 1).status = 404 ∧
    (qaHistoryHandler (deleteDocumentHandler dbW 10 1).db 10 1).status = 404 := by
  have h := C7_delete_cascade dbW 10 1 docW rfl rfl
  exact ⟨h.1, h.2.1, h.2.2.1, h.2.2.2.1, h.2.2.2.2.2.1, h.2.2.2.2.2.2.1,
    h.2.2.2.2.2.2.2⟩

/-! ### Claim C8: Q&A history append and ordering -/

/-- C8: every successful ask call appends exactly one QAHistory row with
the submitted question and returned answer — with no deduplication, the
count of identical rows strictly increases by one — and the QA-history
route returns the caller's entries for the document sorted newest
first. -/
theorem C8_ask_appends_history :
    (∀ (llm : Str → Str → Except String Str) (db : DB) (callerId docId : Nat)
        (d : Document) (q a : Str) (now : Nat),
      findDocument db docId = some d → d.userId = callerId →
      answerQuestion llm d.text q = Except.ok a →
      askHandler llm db callerId docId q now =
        ⟨200, some a,
          { db with qaHistory := db.qaHistory ++ [⟨docId, callerId, q, a, now⟩] }⟩ ∧
      (db.qaHistory ++ [(⟨docId, callerId, q, a, now⟩ : QAEntry)]).countP
          (fun e => e.documentId == docId && e.userId == callerId &&
            e.question == q && e.answer == a) =
        db.qaHistory.countP
          (fun e => e.documentId == docId && e.userId == callerId &&
            e.question == q && e.answer == a) + 1) ∧
    (∀ (db : DB) (callerId docId : Nat) (d : Document),
      findDocument db docId = some d → d.userId = callerId →
      qaHistoryHandler db callerId docId =
        ⟨200, some (sortNewestFirst (db.qaHistory.filter
          (fun e => e.documentId == docId && e.userId == callerId))), db⟩ ∧
      List.Sorted newerFirst (sortNewestFirst (db.qaHistory.filter
        (fun e => e.documentId == docId && e.userId == callerId))) ∧
      List.Perm
        (sortNewestFirst (db.qaHistory.filter
          (fun e => e.documentId == docId && e.userId == callerId)))
        (db.qaHistory.filter (fun e => e.documentId == docId && e.userId == callerId))) := by
  constructor
  · intro llm db callerId docId d q a now hd hown hok
    constructor
    · unfold askHandler
      rw [hd]
      dsimp only
      rw [if_neg (by rw [hown]; exact fun h => h rfl), hok]
    · rw [List.countP_append]
      simp [List.countP_cons]
  · intro db callerId docId d hd hown
    refine ⟨?_, List.sorted_insertionSort newerFirst _, List.perm_insertionSort newerFirst _⟩
    unfold qaHistoryHandler
    rw [hd]
    dsimp only
    rw [if_neg (by rw [hown]; exact fun h => h rfl)]

/-- C8 (witness): asking the echoing oracle a question on the stored
document appends exactly that row, and the history route at the same
state responds 200 with the sorted (here empty) filtered history. -/
theorem C8_ask_appends_history_witness :
    askHandler okEchoQA dbW 10 1 ['q'] 7 =
      ⟨200, some ['q'],
        { dbW with qaHistory := dbW.qaHistory ++ [⟨1, 10, ['q'], ['q'], 7⟩] }⟩ ∧
    (dbW.qaHistory ++ [(⟨1, 10, ['q'], ['q'], 7⟩ : QAEntry)]).countP
        (fun e => e.documentId == 1 && e.userId == 10 &&
          e.question == ['q'] && e.answer == ['q']) =
      dbW.qaHistory.countP
        (fun e => e.documentId == 1 && e.userId == 10 &&
          e.question == ['q'] && e.answer == ['q']) + 1 ∧
    qaHistoryHandler dbW 10 1 =
      ⟨200, some (sortNewestFirst (dbW.qaHistory.filter
        (fun e => e.documentId == 1 && e.userId == 10))), dbW⟩ := by
  have ha := C8_ask_appends_history.1 okEchoQA dbW 10 1 docW ['q'] ['q'] 7 rfl rfl rfl
  have hb := C8_ask_appends_history.2 dbW 10 1 docW rfl rfl
  exact ⟨ha.1, ha.2, hb.1⟩

/-! ### Claim C9: upload of a bad MIME type -/

/-- C9 (code bug): evaluating the composed `/upload` endpoint at the
failing input — a file of MIME type `image/png` — shows the multer
`fileFilter` refusing it and the route responding 500 via Express's
default error handler, not the 400 the route's own (unreachable)
bad-type branch and the specification intend; no Document row is
created and the database is unchanged. -/
theorem C9_upload_mime_bug :
    fileFilter ⟨"cat.png", "uploads/cat.png", 5, "image/png"⟩ = false ∧
    uploadRoute (fun _ => Except.ok []) dbW 10
      ⟨"cat.png", "uploads/cat.png", 5, "image/png"⟩ 3 = ⟨500, none, dbW⟩ ∧
    (uploadRoute (fun _ => Except.ok []) dbW 10
      ⟨"cat.png", "uploads/cat.png", 5, "image/png"⟩ 3).status ≠ 400 ∧
    (uploadRoute (fun _ => Except.ok []) dbW 10
      ⟨"cat.png", "uploads/cat.png", 5, "image/png"⟩ 3).db.documents = dbW.documents := by
  refine ⟨by decide, rfl, by decide, rfl⟩

end Questify
